import Mathlib

/-!
Verification development for a Go handler of RPLiDAR measurement streams.

The Go source is shallowly embedded:
* `float64` values (angles, distances) are modelled as `ℚ`; Go `int` as `ℤ`.
* The 360-slot measurement buffer `[360]*Measure` becomes `Fin 360 → Option Measure`
  (a `nil` pointer is `none`).
* Go array indexing with a runtime bounds check is modelled by `readSlot`, which
  returns `none` exactly when Go would panic with an index-out-of-range error;
  functions that perform such reads return an outcome type with a distinguished
  `outOfRange` result for that case.
* Go `%` and `/` on `int` are truncated division, i.e. `Int.tmod` / `Int.tdiv`.
* Errors (`errors.New` values) are modelled as inductive error kinds; two Go
  error variables are equal iff the corresponding constructors are equal.
-/

/-- One parsed RPLiDAR measurement (Go struct `Measure` in types.go). -/
structure Measure where
  angle : ℚ
  distance : ℚ
  quality : ℤ
  hasSyncBit : Bool
deriving DecidableEq

/-- The 360-entry measurement buffer, Go `[360]*Measure`. -/
def MeasureBuffer : Type := Fin 360 → Option Measure

/-- The buffer with every slot empty (all `nil` pointers). -/
def emptyMeasures : MeasureBuffer := fun _ => none

/-- Go array read `measures[i]` for `i : int`: `none` models the runtime
index-out-of-range panic, `some s` the read slot (itself an optional measure). -/
def readSlot (measures : MeasureBuffer) (i : ℤ) : Option (Option Measure) :=
  if h : 0 ≤ i ∧ i < 360 then some (measures ⟨i.toNat, by omega⟩) else none

/-- The three width-validation errors of utils.go / errors.go:
`ErrAngleWidthMustBeOdd`, `ErrAngleWidthTooSmall`, `ErrAngleWidthTooLarge`. -/
inductive WidthErr
  | mustBeOdd
  | tooSmall
  | tooLarge
deriving DecidableEq

/-- Result of a buffer-reading query: a value, a returned error, or a Go runtime
index-out-of-range panic. -/
inductive AvgOutcome (α : Type)
  | ok (v : α)
  | err (e : WidthErr)
  | outOfRange
deriving DecidableEq

/-- The inclusive integer range `[lo, hi]` as a list (empty when `hi < lo`),
used to embed Go `for` loops of the shape `for a := lo; a <= hi; a++`. -/
def rangeInt (lo hi : ℤ) : List ℤ :=
  (List.range (hi + 1 - lo).toNat).map (fun (k : ℕ) => lo + (k : ℤ))

/-- The list of angle indexes built by `GetAverageDistanceFromAngle`
(utils.go lines 46-63) for the `width > 1` case, in the order Go appends them:
the below-zero wrap segment, the above-359 wrap segment, then the main segment
`max(leftAngle,0) .. min(360,rightAngle)`. -/
def anglesList (middleAngle width : ℤ) : List ℤ :=
  let widthPerSide := (width - 1).tdiv 2
  let leftAngle := middleAngle - widthPerSide
  let rightAngle := middleAngle + widthPerSide
  (if leftAngle < 0 then rangeInt (360 + leftAngle) 359 else []) ++
    (if 360 ≤ rightAngle then rangeInt 0 (rightAngle - 360) else []) ++
    rangeInt (max leftAngle 0) (min 360 rightAngle)

/-- The accumulation loop of `GetAverageDistanceFromAngle` (utils.go lines
65-80): skip empty slots and slots with zero distance or zero quality, sum the
rest, and finally return `totalDistance / float64(count)` (the division is
taken even when `count = 0`; `ℚ`-division by zero stands in for Go's float
`0/0`). A read outside `[0,359]` is Go's index panic, `outOfRange`. -/
def sumLoop (measures : MeasureBuffer) :
    List ℤ → ℚ → ℤ → AvgOutcome ℚ
  | [], totalDistance, count => .ok (totalDistance / (count : ℚ))
  | a :: rest, totalDistance, count =>
    match readSlot measures a with
    | none => .outOfRange
    | some none => sumLoop measures rest totalDistance count
    | some (some m) =>
      if m.distance = 0 ∨ m.quality = 0 then
        sumLoop measures rest totalDistance count
      else
        sumLoop measures rest (totalDistance + m.distance) (count + 1)

/-- Go `GetAverageDistanceFromAngle` (utils.go lines 18-81). -/
def GetAverageDistanceFromAngle (measures : MeasureBuffer)
    (middleAngle width : ℤ) : AvgOutcome ℚ :=
  if width.tmod 2 = 0 then .err .mustBeOdd
  else if width < 1 then .err .tooSmall
  else if 360 ≤ width then .err .tooLarge
  else if width = 1 then
    match readSlot measures middleAngle with
    | none => .outOfRange
    | some none => .ok 0
    | some (some m) => .ok m.distance
  else
    sumLoop measures (anglesList middleAngle width) 0 0

/-- The Go map `CardinalDirectionAngles` has 16 keyed entries; a lookup with
`CardinalDirectionNil` (absent from the map) yields Go's zero value `0.0`. -/
inductive CardinalDirection
  | nil
  | north
  | west
  | east
  | south
  | northwest
  | northeast
  | southwest
  | southeast
  | westNorthwest
  | northNorthwest
  | eastNortheast
  | northNortheast
  | westSouthwest
  | eastSoutheast
  | southSouthwest
  | southSoutheast
deriving DecidableEq

/-- `CardinalDirection.Angle()` (types.go lines 871-873): lookup in the
`CardinalDirectionAngles` map, Go zero value `0.0` for the missing `Nil` key. -/
def CardinalDirection.angle : CardinalDirection → ℚ
  | .nil => 0
  | .north => 0
  | .northNortheast => 22.5
  | .northeast => 45
  | .eastNortheast => 67.5
  | .east => 90
  | .eastSoutheast => 112.5
  | .southeast => 135
  | .southSoutheast => 157.5
  | .south => 180
  | .southSouthwest => 202.5
  | .southwest => 225
  | .westSouthwest => 247.5
  | .west => 270
  | .westNorthwest => 292.5
  | .northwest => 315
  | .northNorthwest => 337.5

/-- The `CardinalDirections` slice of the 16 valid directions (types.go lines
837-854), in source order. -/
def CardinalDirections : List CardinalDirection :=
  [.north, .west, .east, .south, .northwest, .northeast, .southwest,
    .southeast, .westNorthwest, .northNorthwest, .eastNortheast,
    .northNortheast, .westSouthwest, .eastSoutheast, .southSouthwest,
    .southSoutheast]

/-- Go `GetAverageDistanceFromDirection` (utils.go lines 94-113): round the
direction's angle with `math.Ceil` when it is `>= 180` and `math.Floor`
otherwise, then delegate.  The `int(...)` conversion is exact because the
rounded value is integral. -/
def GetAverageDistanceFromDirection (measures : MeasureBuffer) (width : ℤ)
    (direction : CardinalDirection) : AvgOutcome ℚ :=
  let directionAngle := direction.angle
  let rounded : ℤ :=
    if 180 ≤ directionAngle then ⌈directionAngle⌉ else ⌊directionAngle⌋
  GetAverageDistanceFromAngle measures rounded width

/-- Go `GetAverageDistancesFromDirections` (utils.go lines 126-142).  The Go
map accumulated in iteration order is modelled as an association list in the
same order; the loop returns the first error (`nil` map) as soon as one
direction fails. -/
def GetAverageDistancesFromDirections (measures : MeasureBuffer) (width : ℤ) :
    List CardinalDirection → AvgOutcome (List (CardinalDirection × ℚ))
  | [] => .ok []
  | direction :: rest =>
    match GetAverageDistanceFromDirection measures width direction with
    | .outOfRange => .outOfRange
    | .err e => .err e
    | .ok avgDistance =>
      match GetAverageDistancesFromDirections measures width rest with
      | .outOfRange => .outOfRange
      | .err e => .err e
      | .ok l => .ok ((direction, avgDistance) :: l)

/-- Modelled from the spec: `GetAverageDistanceFromAllDirections` is called by
`DefaultHandler.GetAverageDistancesFromAllDirections` (types.go line 749) but
its definition is not among the provided source files.  Section 4.3 of the
spec describes it as the "convenience form iterating the full 16-entry
direction table", so it is modelled as the multi-direction query applied to
the full `CardinalDirections` table. -/
def GetAverageDistanceFromAllDirections (measures : MeasureBuffer)
    (width : ℤ) : AvgOutcome (List (CardinalDirection × ℚ)) :=
  GetAverageDistancesFromDirections measures width CardinalDirections

/-- Errors produced while building a `Measure` (types.go): the two
`validateAngle` messages, the field-count error of `NewMeasureFromString`
(carrying the count it reports), and the three field-parse failures. -/
inductive MeasureErr
  | invalidAngleRange
  | invalidAngleNegative
  | wrongFieldCount (n : ℕ)
  | angleParse
  | distanceParse
  | qualityParse
deriving DecidableEq

/-- Go `validateAngle` (types.go lines 62-78). -/
def validateAngle (angle : ℚ) (hasSyncBit : Bool) : Option MeasureErr :=
  if ¬hasSyncBit then
    if angle < 0 ∨ 360 ≤ angle then some .invalidAngleRange else none
  else if angle < 0 then some .invalidAngleNegative else none

/-- Go `NewMeasure` (types.go lines 94-134): validate the raw angle, subtract
360 for sync-bit measures, mirror for an upside-down sensor, add the
adjustment when nonzero, then normalize with a single `+360` / `-360` step. -/
def NewMeasure (angle distance : ℚ) (quality : ℤ)
    (hasSyncBit isUpsideDown : Bool) (angleAdjustment : ℚ) :
    Except MeasureErr Measure :=
  match validateAngle angle hasSyncBit with
  | some e => .error e
  | none =>
    let angle1 := if hasSyncBit then angle - 360 else angle
    let angle2 := if isUpsideDown then 360 - angle1 else angle1
    let angle3 := if angleAdjustment ≠ 0 then angle2 + angleAdjustment else angle2
    let angle4 :=
      if angle3 < 0 then angle3 + 360
      else if 360 ≤ angle3 then angle3 - 360
      else angle3
    .ok ⟨angle4, distance, quality, hasSyncBit⟩

/-!
String layer.  Go strings are modelled as `List Char`.
-/

/-- Whitespace recognition of Go `strings.Fields` / `unicode.IsSpace`,
restricted to the Latin-1 code points Go treats as space. -/
def goIsSpace (c : Char) : Bool :=
  c = ' ' ∨ c = '\t' ∨ c = '\n' ∨ c = Char.ofNat 11 ∨ c = Char.ofNat 12 ∨
    c = '\r' ∨ c = Char.ofNat 133 ∨ c = Char.ofNat 160

/-- The character for a single decimal digit. -/
def digitChar (n : ℕ) : Char := Char.ofNat (48 + n)

/-- Decimal digit characters of `n`, most significant first (fuel-based so the
kernel can evaluate it; the fuel `n + 1` always suffices). -/
def natCharsAux : ℕ → ℕ → List Char
  | 0, _ => []
  | fuel + 1, n =>
    if n < 10 then [digitChar n]
    else natCharsAux fuel (n / 10) ++ [digitChar (n % 10)]

/-- Decimal representation of a natural number, as Go prints it. -/
def natChars (n : ℕ) : List Char := natCharsAux (n + 1) n

/-- Left-pad a digit string with zeros to length `k`. -/
def padZeros (k : ℕ) (l : List Char) : List Char :=
  List.replicate (k - l.length) '0' ++ l

/-- Go `fmt.Sprintf("%f", x)` for a nonnegative value: the value rounded to
six decimal places, printed as integer part, a dot and exactly six fractional
digits.  (Go rounds the underlying binary float; on the `ℚ` model this is
rounding the rational to the nearest multiple of `1e-6`.) -/
def formatGoFloatNonneg (q : ℚ) : List Char :=
  let scaled : ℕ := ⌊q * 1000000 + 1 / 2⌋.toNat
  natChars (scaled / 1000000) ++ '.' :: padZeros 6 (natChars (scaled % 1000000))

/-- Go `fmt.Sprintf("%f", x)`: a leading minus sign for negative values. -/
def formatGoFloat (q : ℚ) : List Char :=
  if q < 0 then '-' :: formatGoFloatNonneg (-q) else formatGoFloatNonneg q

/-- Go `fmt.Sprintf("%d", z)` for an `int`. -/
def formatGoInt (z : ℤ) : List Char :=
  if z < 0 then '-' :: natChars (-z).toNat else natChars z.toNat

/-- The `AttributesSeparator` constant (constants.go line 59). -/
def AttributesSeparator : List Char := [',']

/-- The `SyncBitCharacter` constant (constants.go line 24). -/
def SyncBitCharacter : List Char := ['S']

/-- Go `Measure.String()` (types.go lines 235-244):
`fmt.Sprintf("%f%s%f%s%d", angle, sep, distance, sep, quality)`. -/
def Measure.toString (m : Measure) : List Char :=
  formatGoFloat m.angle ++ AttributesSeparator ++ formatGoFloat m.distance ++
    AttributesSeparator ++ formatGoInt m.quality

/-- Accumulator pass of `strings.Fields`: split on runs of whitespace,
dropping empty fields. -/
def fieldsAux : List Char → List Char → List (List Char)
  | [], acc => if acc = [] then [] else [acc.reverse]
  | c :: rest, acc =>
    if goIsSpace c then
      if acc = [] then fieldsAux rest [] else acc.reverse :: fieldsAux rest []
    else fieldsAux rest (c :: acc)

/-- Go `strings.Fields`: the whitespace-separated fields of a string. -/
def goFields (s : List Char) : List (List Char) := fieldsAux s []

/-- Digit test for ASCII characters. -/
def isAsciiDigit (c : Char) : Bool := 48 ≤ c.toNat ∧ c.toNat ≤ 57

/-- Value of a string of decimal digit characters. -/
def digitsToNat (l : List Char) : ℕ :=
  l.foldl (fun acc c => 10 * acc + (c.toNat - 48)) 0

/-- Model of `strconv.ParseFloat` (reached through the `ToFloat64` helper) on
the plain decimal forms the LiDAR stream uses: optional sign, integer digits,
optional dot and fraction digits, at least one digit overall.  (Exponent, hex
and infinity forms accepted by Go are not modelled; none of the verified
claims depends on them.) -/
def parseGoFloat (s : List Char) : Option ℚ :=
  let (neg, s1) :=
    match s with
    | '-' :: rest => (true, rest)
    | '+' :: rest => (false, rest)
    | _ => (false, s)
  let intDigits := s1.takeWhile isAsciiDigit
  let rest := s1.dropWhile isAsciiDigit
  let magnitude : Option ℚ :=
    match rest with
    | [] => if intDigits = [] then none else some (digitsToNat intDigits)
    | '.' :: fracRest =>
      let fracDigits := fracRest.takeWhile isAsciiDigit
      let rest2 := fracRest.dropWhile isAsciiDigit
      if rest2 ≠ [] then none
      else if intDigits = [] ∧ fracDigits = [] then none
      else
        some ((digitsToNat intDigits : ℚ) +
          (digitsToNat fracDigits : ℚ) / (10 : ℚ) ^ fracDigits.length)
    | _ => none
  match magnitude with
  | none => none
  | some q => some (if neg then -q else q)

/-- Model of `strconv.Atoi` (reached through the `ToInt` helper): optional
sign then decimal digits. -/
def parseGoInt (s : List Char) : Option ℤ :=
  let (neg, s1) :=
    match s with
    | '-' :: rest => (true, rest)
    | '+' :: rest => (false, rest)
    | _ => (false, s)
  if s1 = [] ∨ ¬(s1.all isAsciiDigit) then none
  else some (if neg then -(digitsToNat s1 : ℤ) else (digitsToNat s1 : ℤ))

/-- The tail of `NewMeasureFromString` after the sync-marker strip: require
exactly three fields (`"expected 3 fields, got %d"` otherwise), parse
angle/distance/quality, and delegate to `NewMeasure`. -/
def measureFromFields (hasSyncBit : Bool) (isUpsideDown : Bool)
    (angleAdjustment : ℚ) : List (List Char) → Except MeasureErr Measure
  | [f0, f1, f2] =>
    match parseGoFloat f0 with
    | none => .error .angleParse
    | some angle =>
      match parseGoFloat f1 with
      | none => .error .distanceParse
      | some distance =>
        match parseGoInt f2 with
        | none => .error .qualityParse
        | some quality =>
          NewMeasure angle distance quality hasSyncBit isUpsideDown
            angleAdjustment
  | other => .error (.wrongFieldCount other.length)

/-- Go `NewMeasureFromString` (types.go lines 147-201): split the line into
whitespace-separated fields, strip a leading `"S"` sync marker when there are
exactly four fields, then parse the three remaining fields. -/
def NewMeasureFromString (measureStr : List Char) (isUpsideDown : Bool)
    (angleAdjustment : ℚ) : Except MeasureErr Measure :=
  let fields0 := goFields measureStr
  if fields0.length = 4 ∧ fields0.head? = some SyncBitCharacter then
    measureFromFields true isUpsideDown angleAdjustment fields0.tail
  else
    measureFromFields false isUpsideDown angleAdjustment fields0

/-!
Handler state.  `DefaultHandler.Run` (types.go lines 479-517) is embedded as a
sequential state transformer over the mutable fields the claims mention; the
external effects (logger-producer creation and `runToWrap`'s process and
stream handling) are parameters of the embedding, since they depend on the
outside world.  The mutex-guarded check-and-set is modelled by the sequential
order of the branches.
-/

/-- The mutable handler fields relevant to `Run`: the `isRunning` flag, the
360-slot buffer and the startup-line counter. -/
structure HandlerState where
  isRunning : Bool
  measures : MeasureBuffer
  stdoutLinesRead : ℤ

/-- Errors `Run` can return: `ErrHandlerAlreadyRunning`, a logger-producer
creation failure, or an error propagated from `runToWrap`. -/
inductive RunErr
  | alreadyRunning
  | producerCreation
  | runToWrapFailed
deriving DecidableEq

/-- The state effect of `runToWrap` (types.go lines 360-365): reset the
measures array and the stdout line counter before doing I/O. -/
def runToWrapState (s : HandlerState) : HandlerState :=
  { s with measures := emptyMeasures, stdoutLinesRead := 0 }

/-- Go `DefaultHandler.Run` (types.go lines 479-517).  `producerOk` abstracts
whether `logger.NewProducer` succeeds, and `wrapResult` the outcome of
`runToWrap`'s external work; both are irrelevant on the already-running path.
Returns the result paired with the final state. -/
def DefaultHandler.Run (producerOk : Bool) (wrapResult : Option RunErr)
    (s : HandlerState) : Option RunErr × HandlerState :=
  if s.isRunning then (some .alreadyRunning, s)
  else
    let s1 := { s with isRunning := true }
    if producerOk then
      let s2 := runToWrapState s1
      (wrapResult, { s2 with isRunning := false })
    else (some .producerCreation, { s1 with isRunning := false })

/-!
Auxiliary definitions used to state the claims.
-/

/-- A buffer angle contributes to the running sum of
`GetAverageDistanceFromAngle` iff its slot is present with nonzero distance
and nonzero quality. -/
def contributes (measures : MeasureBuffer) (a : ℤ) : Bool :=
  match readSlot measures a with
  | some (some m) => if m.distance = 0 ∨ m.quality = 0 then false else true
  | _ => false

/-- Whether an outcome is a successful value. -/
def AvgOutcome.isOk {α : Type} : AvgOutcome α → Bool
  | .ok _ => true
  | _ => false

/-- The value of a successful outcome (junk `0` otherwise). -/
def okValue : AvgOutcome ℚ → ℚ
  | .ok v => v
  | _ => 0

/-- A buffer with a measurement in every slot (used to show that the
out-of-range read is not an artifact of empty slots). -/
def denseMeasures : MeasureBuffer := fun _ => some ⟨0, 200, 3, false⟩

/-- A buffer whose only measurement sits at angle 157 with distance 5. -/
def measuresAt157 : MeasureBuffer :=
  fun i => if (i : ℕ) = 157 then some ⟨157, 5, 10, false⟩ else none

/-- A handler state that is currently running, with a nonzero line counter. -/
def runningState : HandlerState :=
  { isRunning := true, measures := emptyMeasures, stdoutLinesRead := 7 }

instance exceptDecEq {e a : Type} [DecidableEq e] [DecidableEq a] :
    DecidableEq (Except e a)
  | .error x, .error y => decidable_of_iff (x = y) (by simp)
  | .error _, .ok _ => isFalse (by simp)
  | .ok _, .error _ => isFalse (by simp)
  | .ok x, .ok y => decidable_of_iff (x = y) (by simp)

/-!
Helper lemmas.
-/

theorem mem_rangeInt {a lo hi : ℤ} : a ∈ rangeInt lo hi ↔ lo ≤ a ∧ a ≤ hi := by
  unfold rangeInt
  rw [List.mem_map]
  constructor
  · rintro ⟨k, hk, rfl⟩
    rw [List.mem_range] at hk
    omega
  · intro h
    refine ⟨(a - lo).toNat, ?_, ?_⟩
    · rw [List.mem_range]
      omega
    · omega

theorem widthPerSide_eq {w : ℤ} (h : 1 ≤ w) : (w - 1).tdiv 2 = (w - 1) / 2 :=
  Int.tdiv_eq_ediv (by omega) (by omega)

theorem anglesList_bounds {mid w : ℤ} (hm0 : 0 ≤ mid) (hm1 : mid ≤ 359)
    (hw1 : 1 ≤ w) (hw2 : w ≤ 359) (hcross : mid + (w - 1).tdiv 2 ≤ 359) :
    ∀ a ∈ anglesList mid w, 0 ≤ a ∧ a ≤ 359 := by
  intro a ha
  have hps : (w - 1).tdiv 2 = (w - 1) / 2 := widthPerSide_eq hw1
  have h0 : 0 ≤ (w - 1).tdiv 2 := by rw [hps]; omega
  have h179 : (w - 1).tdiv 2 ≤ 179 := by rw [hps]; omega
  simp only [anglesList, List.mem_append] at ha
  rcases ha with (h | h) | h
  · by_cases hL : mid - (w - 1).tdiv 2 < 0
    · rw [if_pos hL, mem_rangeInt] at h
      omega
    · rw [if_neg hL] at h
      simp at h
  · rw [if_neg (by omega)] at h
    simp at h
  · rw [mem_rangeInt] at h
    omega

theorem readSlot_isSome {measures : MeasureBuffer} {a : ℤ} (h0 : 0 ≤ a)
    (h1 : a ≤ 359) : readSlot measures a = some (measures ⟨a.toNat, by omega⟩) := by
  unfold readSlot
  rw [dif_pos ⟨h0, by omega⟩]

theorem sumLoop_all_skipped {measures : MeasureBuffer} {L : List ℤ}
    (h : ∀ a ∈ L, readSlot measures a ≠ none ∧ contributes measures a = false) :
    ∀ t : ℚ, ∀ c : ℤ, sumLoop measures L t c = .ok (t / (c : ℚ)) := by
  induction L with
  | nil => intro t c; rfl
  | cons a rest ih =>
    intro t c
    obtain ⟨hnn, hnc⟩ := h a (List.mem_cons_self a rest)
    have hrest : ∀ b ∈ rest, readSlot measures b ≠ none ∧
        contributes measures b = false :=
      fun b hb => h b (List.mem_cons_of_mem a hb)
    rcases hr : readSlot measures a with _ | mo
    · exact absurd hr hnn
    · cases mo with
      | none =>
        unfold sumLoop
        rw [hr]
        exact ih hrest t c
      | some m =>
        have hskip : m.distance = 0 ∨ m.quality = 0 := by
          unfold contributes at hnc
          rw [hr] at hnc
          have hnc2 : (if m.distance = 0 ∨ m.quality = 0 then false else true) =
              false := hnc
          by_contra hcon
          rw [if_neg hcon] at hnc2
          exact Bool.noConfusion hnc2
        unfold sumLoop
        rw [hr]
        show (if m.distance = 0 ∨ m.quality = 0 then sumLoop measures rest t c
          else sumLoop measures rest (t + m.distance) (c + 1)) = _
        rw [if_pos hskip]
        exact ih hrest t c

theorem sumLoop_no_oob {measures : MeasureBuffer} {L : List ℤ}
    (h : ∀ a ∈ L, readSlot measures a ≠ none) :
    ∀ t : ℚ, ∀ c : ℤ, (sumLoop measures L t c).isOk = true := by
  induction L with
  | nil => intro t c; rfl
  | cons a rest ih =>
    intro t c
    have hnn := h a (List.mem_cons_self a rest)
    have hrest : ∀ b ∈ rest, readSlot measures b ≠ none :=
      fun b hb => h b (List.mem_cons_of_mem a hb)
    rcases hr : readSlot measures a with _ | mo
    · exact absurd hr hnn
    · cases mo with
      | none =>
        unfold sumLoop
        rw [hr]
        exact ih hrest t c
      | some m =>
        unfold sumLoop
        rw [hr]
        show ((if m.distance = 0 ∨ m.quality = 0 then sumLoop measures rest t c
          else sumLoop measures rest (t + m.distance) (c + 1))).isOk = true
        by_cases hskip : m.distance = 0 ∨ m.quality = 0
        · rw [if_pos hskip]; exact ih hrest t c
        · rw [if_neg hskip]; exact ih hrest (t + m.distance) (c + 1)

theorem getAverage_eq_sumLoop {measures : MeasureBuffer} {mid w : ℤ}
    (hodd : Int.tmod w 2 ≠ 0) (hw1 : 1 < w) (hw2 : w < 360) :
    GetAverageDistanceFromAngle measures mid w =
      sumLoop measures (anglesList mid w) 0 0 := by
  unfold GetAverageDistanceFromAngle
  rw [if_neg hodd, if_neg (by omega), if_neg (by omega), if_neg (by omega)]

theorem getAverage_width_one (measures : MeasureBuffer) (mid : ℤ) :
    GetAverageDistanceFromAngle measures mid 1 =
      match readSlot measures mid with
      | none => .outOfRange
      | some none => .ok 0
      | some (some m) => .ok m.distance := by
  unfold GetAverageDistanceFromAngle
  rw [if_neg (by decide), if_neg (by decide), if_neg (by decide), if_pos rfl]

theorem direction_angle_bounds (d : CardinalDirection) :
    0 ≤ d.angle ∧ d.angle ≤ 337.5 := by
  cases d <;> constructor <;> norm_num [CardinalDirection.angle]

theorem roundedAngle_bounds (d : CardinalDirection) :
    0 ≤ (if 180 ≤ d.angle then ⌈d.angle⌉ else ⌊d.angle⌋) ∧
      (if 180 ≤ d.angle then ⌈d.angle⌉ else ⌊d.angle⌋) ≤ 338 := by
  obtain ⟨h0, h1⟩ := direction_angle_bounds d
  by_cases h : (180 : ℚ) ≤ d.angle
  · rw [if_pos h]
    refine ⟨Int.ceil_nonneg h0, ?_⟩
    rw [Int.ceil_le]
    exact h1.trans (by norm_num)
  · rw [if_neg h]
    constructor
    · rw [Int.le_floor]
      exact_mod_cast h0
    · have h2 : ⌊d.angle⌋ ≤ ⌊(337.5 : ℚ)⌋ := Int.floor_le_floor h1
      have h3 : ⌊(337.5 : ℚ)⌋ = 337 := by norm_num
      omega

theorem getAverage_isOk {measures : MeasureBuffer} {mid w : ℤ}
    (hodd : Int.tmod w 2 ≠ 0) (hw1 : 1 ≤ w) (hw2 : w ≤ 359)
    (hm0 : 0 ≤ mid) (hm1 : mid ≤ 359)
    (hcross : mid + (w - 1).tdiv 2 ≤ 359) :
    (GetAverageDistanceFromAngle measures mid w).isOk = true := by
  by_cases hw : w = 1
  · subst hw
    rw [getAverage_width_one, readSlot_isSome hm0 hm1]
    cases measures ⟨mid.toNat, by omega⟩ <;> rfl
  · have hw2' : w ≠ 2 := by
      intro h
      rw [h] at hodd
      exact hodd (by decide)
    have hw3 : 3 ≤ w := by omega
    rw [getAverage_eq_sumLoop hodd (by omega) (by omega)]
    refine sumLoop_no_oob (fun a ha => ?_) 0 0
    obtain ⟨ha0, ha1⟩ := anglesList_bounds hm0 hm1 hw1 hw2 hcross a ha
    rw [readSlot_isSome ha0 ha1]
    exact Option.some_ne_none _

theorem fromDirection_isOk (measures : MeasureBuffer) {w : ℤ}
    (hodd : Int.tmod w 2 ≠ 0) (hw1 : 1 ≤ w) (hw43 : w ≤ 43)
    (d : CardinalDirection) :
    (GetAverageDistanceFromDirection measures w d).isOk = true := by
  obtain ⟨hr0, hr1⟩ := roundedAngle_bounds d
  have hps : (w - 1).tdiv 2 ≤ 21 := by
    rw [widthPerSide_eq hw1]
    omega
  show (GetAverageDistanceFromAngle measures
    (if 180 ≤ d.angle then ⌈d.angle⌉ else ⌊d.angle⌋) w).isOk = true
  exact getAverage_isOk hodd hw1 (by omega) hr0 (by omega) (by omega)

theorem fromDirections_map {measures : MeasureBuffer} {w : ℤ}
    {dirs : List CardinalDirection}
    (h : ∀ d ∈ dirs,
      (GetAverageDistanceFromDirection measures w d).isOk = true) :
    GetAverageDistancesFromDirections measures w dirs =
      .ok (dirs.map fun d =>
        (d, okValue (GetAverageDistanceFromDirection measures w d))) := by
  induction dirs with
  | nil => rfl
  | cons d rest ih =>
    have hd := h d (List.mem_cons_self d rest)
    have hrest := fun b hb => h b (List.mem_cons_of_mem d hb)
    cases hv : GetAverageDistanceFromDirection measures w d with
    | ok v =>
      have hrec := ih hrest
      unfold GetAverageDistancesFromDirections
      rw [hv, hrec, List.map_cons]
      show AvgOutcome.ok ((d, v) :: rest.map fun b =>
          (b, okValue (GetAverageDistanceFromDirection measures w b))) = _
      rw [hv]
      rfl
    | err e =>
      rw [hv] at hd
      exact Bool.noConfusion hd
    | outOfRange =>
      rw [hv] at hd
      exact Bool.noConfusion hd

theorem fromDirections_oob {measures : MeasureBuffer} {w : ℤ}
    {pre : List CardinalDirection} {d : CardinalDirection}
    {post : List CardinalDirection}
    (hpre : ∀ b ∈ pre,
      (GetAverageDistanceFromDirection measures w b).isOk = true)
    (hd : GetAverageDistanceFromDirection measures w d = .outOfRange) :
    GetAverageDistancesFromDirections measures w (pre ++ d :: post) =
      .outOfRange := by
  induction pre with
  | nil =>
    rw [List.nil_append]
    unfold GetAverageDistancesFromDirections
    rw [hd]
  | cons b rest ih =>
    have hb := hpre b (List.mem_cons_self b rest)
    have hrest := fun x hx => hpre x (List.mem_cons_of_mem b hx)
    rw [List.cons_append]
    cases hv : GetAverageDistanceFromDirection measures w b with
    | ok v =>
      unfold GetAverageDistancesFromDirections
      rw [hv, ih hrest]
    | err e =>
      rw [hv] at hb
      exact Bool.noConfusion hb
    | outOfRange =>
      rw [hv] at hb
      exact Bool.noConfusion hb

theorem ceil_rat_eq {a : ℚ} {z : ℤ} (h1 : (z : ℚ) - 1 < a) (h2 : a ≤ z) :
    ⌈a⌉ = z :=
  Int.ceil_eq_iff.mpr ⟨h1, h2⟩

theorem floor_rat_eq {a : ℚ} {z : ℤ} (h1 : (z : ℚ) ≤ a) (h2 : a < z + 1) :
    ⌊a⌋ = z :=
  Int.floor_eq_iff.mpr ⟨h1, by exact_mod_cast h2⟩

theorem natCharsAux_mem {f n : ℕ} {c : Char} (hc : c ∈ natCharsAux f n) :
    ∃ d, d < 10 ∧ c = digitChar d := by
  induction f generalizing n with
  | zero => simp [natCharsAux] at hc
  | succ f ih =>
    unfold natCharsAux at hc
    by_cases h : n < 10
    · rw [if_pos h] at hc
      simp only [List.mem_singleton] at hc
      exact ⟨n, h, hc⟩
    · rw [if_neg h, List.mem_append] at hc
      rcases hc with hc | hc
      · exact ih hc
      · simp only [List.mem_singleton] at hc
        exact ⟨n % 10, Nat.mod_lt _ (by norm_num), hc⟩

theorem goIsSpace_digitChar : ∀ d < 10, goIsSpace (digitChar d) = false := by
  decide

theorem natChars_no_space {n : ℕ} {c : Char} (hc : c ∈ natChars n) :
    goIsSpace c = false := by
  obtain ⟨d, hd, rfl⟩ := natCharsAux_mem hc
  exact goIsSpace_digitChar d hd

theorem formatGoFloatNonneg_no_space {q : ℚ} {c : Char}
    (hc : c ∈ formatGoFloatNonneg q) : goIsSpace c = false := by
  simp only [formatGoFloatNonneg, List.mem_append, List.mem_cons] at hc
  rcases hc with hc | hc | hc
  · exact natChars_no_space hc
  · subst hc
    decide
  · simp only [padZeros, List.mem_append, List.mem_replicate] at hc
    rcases hc with ⟨_, hc⟩ | hc
    · subst hc
      decide
    · exact natChars_no_space hc

theorem formatGoFloat_no_space {q : ℚ} {c : Char}
    (hc : c ∈ formatGoFloat q) : goIsSpace c = false := by
  unfold formatGoFloat at hc
  by_cases h : q < 0
  · rw [if_pos h, List.mem_cons] at hc
    rcases hc with hc | hc
    · subst hc
      decide
    · exact formatGoFloatNonneg_no_space hc
  · rw [if_neg h] at hc
    exact formatGoFloatNonneg_no_space hc

theorem formatGoInt_no_space {z : ℤ} {c : Char}
    (hc : c ∈ formatGoInt z) : goIsSpace c = false := by
  unfold formatGoInt at hc
  by_cases h : z < 0
  · rw [if_pos h, List.mem_cons] at hc
    rcases hc with hc | hc
    · subst hc
      decide
    · exact natChars_no_space hc
  · rw [if_neg h] at hc
    exact natChars_no_space hc

theorem toString_no_space {m : Measure} {c : Char} (hc : c ∈ m.toString) :
    goIsSpace c = false := by
  simp only [Measure.toString, AttributesSeparator, List.mem_append,
    List.mem_singleton] at hc
  rcases hc with (((hc | hc) | hc) | hc) | hc
  · exact formatGoFloat_no_space hc
  · subst hc
    decide
  · exact formatGoFloat_no_space hc
  · subst hc
    decide
  · exact formatGoInt_no_space hc

theorem toString_ne_nil (m : Measure) : m.toString ≠ [] := by
  simp [Measure.toString, AttributesSeparator, formatGoFloatNonneg]

theorem fieldsAux_nonspace {s : List Char}
    (hs : ∀ c ∈ s, goIsSpace c = false) :
    ∀ acc : List Char, acc ≠ [] ∨ s ≠ [] →
      fieldsAux s acc = [acc.reverse ++ s] := by
  induction s with
  | nil =>
    intro acc hne
    rcases hne with h | h
    · unfold fieldsAux
      rw [if_neg h, List.append_nil]
    · exact absurd rfl h
  | cons ch rest ih =>
    intro acc _
    have hch := hs ch (List.mem_cons_self ch rest)
    have hrest := fun b hb => hs b (List.mem_cons_of_mem ch hb)
    unfold fieldsAux
    rw [if_neg (by rw [hch]; exact Bool.false_ne_true)]
    rw [ih hrest (ch :: acc) (Or.inl (List.cons_ne_nil ch acc))]
    simp [List.reverse_cons, List.append_assoc]

theorem goFields_single {s : List Char} (hne : s ≠ [])
    (hs : ∀ c ∈ s, goIsSpace c = false) : goFields s = [s] := by
  unfold goFields
  rw [fieldsAux_nonspace hs [] (Or.inr hne)]
  rfl

theorem reparse_toString_fails (m : Measure) (isUpsideDown : Bool) (adj : ℚ) :
    NewMeasureFromString m.toString isUpsideDown adj =
      .error (.wrongFieldCount 1) := by
  unfold NewMeasureFromString
  rw [goFields_single (toString_ne_nil m) (fun c hc => toString_no_space hc)]
  rw [if_neg (by simp)]
  rfl

theorem fromDirection_eq (measures : MeasureBuffer) (w : ℤ)
    (d : CardinalDirection) {r : ℤ}
    (hr : (if 180 ≤ d.angle then ⌈d.angle⌉ else ⌊d.angle⌋) = r) :
    GetAverageDistanceFromDirection measures w d =
      GetAverageDistanceFromAngle measures r w := by
  rw [← hr]
  rfl

theorem rounded_angle_north :
    (if 180 ≤ CardinalDirection.angle .north then
      ⌈CardinalDirection.angle .north⌉ else
      ⌊CardinalDirection.angle .north⌋) = 0 := by
  rw [if_neg (by norm_num [CardinalDirection.angle])]
  exact floor_rat_eq (by norm_num [CardinalDirection.angle])
    (by norm_num [CardinalDirection.angle])

theorem rounded_angle_west :
    (if 180 ≤ CardinalDirection.angle .west then
      ⌈CardinalDirection.angle .west⌉ else
      ⌊CardinalDirection.angle .west⌋) = 270 := by
  rw [if_pos (by norm_num [CardinalDirection.angle])]
  exact ceil_rat_eq (by norm_num [CardinalDirection.angle])
    (by norm_num [CardinalDirection.angle])

theorem rounded_angle_east :
    (if 180 ≤ CardinalDirection.angle .east then
      ⌈CardinalDirection.angle .east⌉ else
      ⌊CardinalDirection.angle .east⌋) = 90 := by
  rw [if_neg (by norm_num [CardinalDirection.angle])]
  exact floor_rat_eq (by norm_num [CardinalDirection.angle])
    (by norm_num [CardinalDirection.angle])

theorem rounded_angle_south :
    (if 180 ≤ CardinalDirection.angle .south then
      ⌈CardinalDirection.angle .south⌉ else
      ⌊CardinalDirection.angle .south⌋) = 180 := by
  rw [if_pos (by norm_num [CardinalDirection.angle])]
  exact ceil_rat_eq (by norm_num [CardinalDirection.angle])
    (by norm_num [CardinalDirection.angle])

theorem rounded_angle_northwest :
    (if 180 ≤ CardinalDirection.angle .northwest then
      ⌈CardinalDirection.angle .northwest⌉ else
      ⌊CardinalDirection.angle .northwest⌋) = 315 := by
  rw [if_pos (by norm_num [CardinalDirection.angle])]
  exact ceil_rat_eq (by norm_num [CardinalDirection.angle])
    (by norm_num [CardinalDirection.angle])

theorem rounded_angle_northeast :
    (if 180 ≤ CardinalDirection.angle .northeast then
      ⌈CardinalDirection.angle .northeast⌉ else
      ⌊CardinalDirection.angle .northeast⌋) = 45 := by
  rw [if_neg (by norm_num [CardinalDirection.angle])]
  exact floor_rat_eq (by norm_num [CardinalDirection.angle])
    (by norm_num [CardinalDirection.angle])

theorem rounded_angle_southwest :
    (if 180 ≤ CardinalDirection.angle .southwest then
      ⌈CardinalDirection.angle .southwest⌉ else
      ⌊CardinalDirection.angle .southwest⌋) = 225 := by
  rw [if_pos (by norm_num [CardinalDirection.angle])]
  exact ceil_rat_eq (by norm_num [CardinalDirection.angle])
    (by norm_num [CardinalDirection.angle])

theorem rounded_angle_southeast :
    (if 180 ≤ CardinalDirection.angle .southeast then
      ⌈CardinalDirection.angle .southeast⌉ else
      ⌊CardinalDirection.angle .southeast⌋) = 135 := by
  rw [if_neg (by norm_num [CardinalDirection.angle])]
  exact floor_rat_eq (by norm_num [CardinalDirection.angle])
    (by norm_num [CardinalDirection.angle])

theorem rounded_angle_westNorthwest :
    (if 180 ≤ CardinalDirection.angle .westNorthwest then
      ⌈CardinalDirection.angle .westNorthwest⌉ else
      ⌊CardinalDirection.angle .westNorthwest⌋) = 293 := by
  rw [if_pos (by norm_num [CardinalDirection.angle])]
  exact ceil_rat_eq (by norm_num [CardinalDirection.angle])
    (by norm_num [CardinalDirection.angle])

theorem rounded_angle_northNorthwest :
    (if 180 ≤ CardinalDirection.angle .northNorthwest then
      ⌈CardinalDirection.angle .northNorthwest⌉ else
      ⌊CardinalDirection.angle .northNorthwest⌋) = 338 := by
  rw [if_pos (by norm_num [CardinalDirection.angle])]
  exact ceil_rat_eq (by norm_num [CardinalDirection.angle])
    (by norm_num [CardinalDirection.angle])

theorem rounded_angle_southSoutheast :
    (if 180 ≤ CardinalDirection.angle .southSoutheast then
      ⌈CardinalDirection.angle .southSoutheast⌉ else
      ⌊CardinalDirection.angle .southSoutheast⌋) = 157 := by
  rw [if_neg (by norm_num [CardinalDirection.angle])]
  exact floor_rat_eq (by norm_num [CardinalDirection.angle])
    (by norm_num [CardinalDirection.angle])

theorem rounded_angle_northNortheast :
    (if 180 ≤ CardinalDirection.angle .northNortheast then
      ⌈CardinalDirection.angle .northNortheast⌉ else
      ⌊CardinalDirection.angle .northNortheast⌋) = 22 := by
  rw [if_neg (by norm_num [CardinalDirection.angle])]
  exact floor_rat_eq (by norm_num [CardinalDirection.angle])
    (by norm_num [CardinalDirection.angle])

theorem rounded_angle_southSouthwest :
    (if 180 ≤ CardinalDirection.angle .southSouthwest then
      ⌈CardinalDirection.angle .southSouthwest⌉ else
      ⌊CardinalDirection.angle .southSouthwest⌋) = 203 := by
  rw [if_pos (by norm_num [CardinalDirection.angle])]
  exact ceil_rat_eq (by norm_num [CardinalDirection.angle])
    (by norm_num [CardinalDirection.angle])


/-!
Claim theorems.
-/

/-- Claim C1 (code bug): for `middleAngle = 359`, `width = 3` — a window that
wraps past 360 — the angle list built by `GetAverageDistanceFromAngle`
contains the raw index 360, which is outside the claimed inspected set
`{358, 359, 0}`, and the loop's read of `measures[360]` is an
index-out-of-range access (a runtime panic in Go):  the claimed "exactly the
wrapped window, each angle once" property fails whenever
`middleAngle + (width-1)/2 ≥ 360`, because the main loop's upper bound is
`min(360, rightAngle)` instead of stopping at 359. -/
theorem getAverageFromAngle_inspects_index_360 :
    anglesList 359 3 = [0, 358, 359, 360] ∧
    GetAverageDistanceFromAngle emptyMeasures 359 3 = .outOfRange := by
  constructor <;> decide

/-- Claim C2 (code bug): with `middleAngle = 358` and the validated width 5,
the function reads the out-of-bounds index 360 (the `none` branch of the
total embedding is reached), even on a fully populated buffer: the claimed
in-bounds-indexing safety property fails for windows that cross the upper
boundary. -/
theorem getAverageFromAngle_oob_read :
    anglesList 358 5 = [0, 356, 357, 358, 359, 360] ∧
    GetAverageDistanceFromAngle denseMeasures 358 5 = .outOfRange := by
  constructor <;> decide

/-- Claim C3 counterexample: the measure with angle 90, distance 100 and
quality 47, built without a rotation marker, serializes to a comma-separated
string that `NewMeasureFromString` rejects with the field-count error —
the round-trip claimed by the spec fails. -/
theorem measure_roundtrip_fails_at_90 :
    NewMeasure 90 100 47 false false 0 = .ok ⟨90, 100, 47, false⟩ ∧
    NewMeasureFromString (Measure.toString ⟨90, 100, 47, false⟩) false 0 =
      .error (.wrongFieldCount 1) :=
  ⟨by norm_num [NewMeasure, validateAngle], reparse_toString_fails _ _ _⟩

/-- Claim C3 (amended): for every measure, re-parsing its `String()` output
with `NewMeasureFromString` (isUpsideDown = false, adjustment = 0) fails with
the "expected 3 fields, got 1" error: `String()` joins the attributes with
the comma `AttributesSeparator` while the parser splits fields on whitespace,
so the serialized form is one whitespace-free token and the round-trip law
does not hold. -/
theorem measure_toString_reparse_fails (m : Measure) :
    NewMeasureFromString m.toString false 0 = .error (.wrongFieldCount 1) :=
  reparse_toString_fails m false 0

/-- Claim C4 (code bug): `NewMeasure` with raw angle 0, a sync bit, the
upside-down flag and zero adjustment — all accepted by `validateAngle`, with
the adjustment magnitude below 360 — stores the angle 360, which is not in
`[0, 360)`: the single-step normalization does not reestablish the claimed
invariant (the sync-bit subtraction followed by the upside-down mirror can
produce 720, and one `-360` step is not enough). -/
theorem newMeasure_angle_not_normalized :
    NewMeasure 0 250 7 true true 0 = .ok ⟨360, 250, 7, true⟩ ∧
    ¬((360 : ℚ) < 360) := by
  constructor
  · norm_num [NewMeasure, validateAngle]
  · norm_num

/-- Claim C5 counterexample: width 4 and width 0 produce the same error value
`ErrAngleWidthMustBeOdd` (width 0 is even, and evenness is checked first), so
the errors for the width-4 and width-0 violations are not distinct as the
claim requires. -/
theorem width_four_and_zero_same_error :
    GetAverageDistanceFromAngle emptyMeasures 5 4 = .err .mustBeOdd ∧
    GetAverageDistanceFromAngle emptyMeasures 5 0 = .err .mustBeOdd := by
  constructor <;> decide

/-- Claim C5 (amended): the three width-error values are pairwise distinct,
width 4 fails with the not-odd error and width 361 with the too-large error;
but the width checks run evenness first, so width 0 also fails with the
not-odd error (the same value as width 4), and the too-small error is
reachable only for odd widths below 1, such as -3. -/
theorem width_validation_errors (measures : MeasureBuffer) (mid : ℤ) :
    GetAverageDistanceFromAngle measures mid 4 = .err .mustBeOdd ∧
    GetAverageDistanceFromAngle measures mid 0 = .err .mustBeOdd ∧
    GetAverageDistanceFromAngle measures mid 361 = .err .tooLarge ∧
    GetAverageDistanceFromAngle measures mid (-3) = .err .tooSmall ∧
    WidthErr.mustBeOdd ≠ WidthErr.tooSmall ∧
    WidthErr.mustBeOdd ≠ WidthErr.tooLarge ∧
    WidthErr.tooSmall ≠ WidthErr.tooLarge := by
  refine ⟨?_, ?_, ?_, ?_, by decide, by decide, by decide⟩
  · unfold GetAverageDistanceFromAngle
    rw [if_pos (by decide : Int.tmod (4 : ℤ) 2 = 0)]
  · unfold GetAverageDistanceFromAngle
    rw [if_pos (by decide : Int.tmod (0 : ℤ) 2 = 0)]
  · unfold GetAverageDistanceFromAngle
    rw [if_neg (by decide : ¬Int.tmod (361 : ℤ) 2 = 0),
      if_neg (by decide : ¬(361 : ℤ) < 1),
      if_pos (by decide : (360 : ℤ) ≤ 361)]
  · unfold GetAverageDistanceFromAngle
    rw [if_neg (by decide : ¬Int.tmod (-3 : ℤ) 2 = 0),
      if_pos (by decide : (-3 : ℤ) < 1)]

/-- Claim C6 counterexample: the direction with canonical angle 157.5
(south-southeast) delegates with the floored angle 157, not 158 as the claim
states: on a buffer whose only measure (distance 5) sits at slot 157, the
direction query returns 5 while the width-1 query at 158 returns 0. -/
theorem direction_157_5_rounds_to_157 :
    CardinalDirection.angle .southSoutheast = 157.5 ∧
    GetAverageDistanceFromDirection measuresAt157 1 .southSoutheast = .ok 5 ∧
    GetAverageDistanceFromAngle measuresAt157 158 1 = .ok 0 := by
  refine ⟨rfl, ?_, by decide⟩
  rw [fromDirection_eq _ _ _ rounded_angle_southSoutheast]
  decide

/-- Claim C6 (amended): `GetAverageDistanceFromDirection` rounds the
direction's canonical angle with the ceiling when the angle is ≥ 180 and the
floor otherwise, then delegates to `GetAverageDistanceFromAngle` with that
integer; in particular 157.5 (south-southeast) rounds down to 157 and 22.5
(north-northeast) to 22, while 202.5 (south-southwest, in the upper
semicircle) rounds up to 203. -/
theorem direction_rounding_rule (measures : MeasureBuffer) (w : ℤ) :
    (∀ d : CardinalDirection,
      GetAverageDistanceFromDirection measures w d =
        GetAverageDistanceFromAngle measures
          (if 180 ≤ d.angle then ⌈d.angle⌉ else ⌊d.angle⌋) w) ∧
    GetAverageDistanceFromDirection measures w .southSoutheast =
      GetAverageDistanceFromAngle measures 157 w ∧
    GetAverageDistanceFromDirection measures w .northNortheast =
      GetAverageDistanceFromAngle measures 22 w ∧
    GetAverageDistanceFromDirection measures w .southSouthwest =
      GetAverageDistanceFromAngle measures 203 w :=
  ⟨fun _ => rfl,
    fromDirection_eq _ _ _ rounded_angle_southSoutheast,
    fromDirection_eq _ _ _ rounded_angle_northNortheast,
    fromDirection_eq _ _ _ rounded_angle_southSouthwest⟩

/-- Claim C7 counterexample: with the empty buffer (so no angle can
contribute and the count is 0), `middleAngle = 357` and the valid width 7,
the function does not return the indeterminate quotient without error — it
performs an out-of-range read (Go panic), because the window crosses the
upper boundary. -/
theorem count_zero_oob_at_357 :
    GetAverageDistanceFromAngle emptyMeasures 357 7 = .outOfRange := by
  decide

/-- Claim C7 (amended): for every valid width > 1 and middle angle whose
window does not cross the upper boundary
(`middleAngle + (width-1)/2 ≤ 359`), when no angle of the window contributes
(count = 0) the function returns with no error, and the returned value is the
quotient `totalDistance / count` taken at `count = 0` — Go's float `0/0`
(NaN), the division-by-zero junk value of `ℚ` in this embedding. -/
theorem count_zero_returns_quotient (measures : MeasureBuffer) (mid w : ℤ)
    (hodd : Int.tmod w 2 ≠ 0) (hw1 : 1 < w) (hw2 : w < 360)
    (hm0 : 0 ≤ mid) (hm1 : mid ≤ 359)
    (hcross : mid + (w - 1).tdiv 2 ≤ 359)
    (hnc : ∀ a ∈ anglesList mid w, contributes measures a = false) :
    GetAverageDistanceFromAngle measures mid w = .ok (0 / ((0 : ℤ) : ℚ)) := by
  rw [getAverage_eq_sumLoop hodd hw1 hw2]
  refine sumLoop_all_skipped (fun a ha => ⟨?_, hnc a ha⟩) 0 0
  obtain ⟨ha0, ha1⟩ :=
    anglesList_bounds hm0 hm1 (by omega) (by omega) hcross a ha
  rw [readSlot_isSome ha0 ha1]
  exact Option.some_ne_none _

/-- Witness for C7 at `middleAngle = 10`, `width = 3`, empty buffer. -/
theorem count_zero_returns_quotient_witness :
    (Int.tmod (3 : ℤ) 2 ≠ 0 ∧ (1 : ℤ) < 3 ∧ (3 : ℤ) < 360 ∧
      (0 : ℤ) ≤ 10 ∧ (10 : ℤ) ≤ 359 ∧ 10 + ((3 : ℤ) - 1).tdiv 2 ≤ 359 ∧
      ∀ a ∈ anglesList 10 3, contributes emptyMeasures a = false) ∧
    GetAverageDistanceFromAngle emptyMeasures 10 3 = .ok (0 / ((0 : ℤ) : ℚ)) :=
  ⟨by decide,
    count_zero_returns_quotient emptyMeasures 10 3 (by decide) (by decide)
      (by decide) (by decide) (by decide) (by decide) (by decide)⟩

/-- Claim C8: with width 1 and a middle angle in `[0, 359]`, the function
returns `0.0` with no error when the slot is absent, and exactly the slot's
distance with no error when the slot is present — with no filtering on the
slot's distance or quality. -/
theorem width_one_returns_slot (measures : MeasureBuffer) (mid : ℤ)
    (hm0 : 0 ≤ mid) (hm1 : mid ≤ 359) :
    (measures ⟨mid.toNat, by omega⟩ = none →
      GetAverageDistanceFromAngle measures mid 1 = .ok 0) ∧
    (∀ m : Measure, measures ⟨mid.toNat, by omega⟩ = some m →
      GetAverageDistanceFromAngle measures mid 1 = .ok m.distance) := by
  constructor
  · intro h
    rw [getAverage_width_one, readSlot_isSome hm0 hm1, h]
  · intro m h
    rw [getAverage_width_one, readSlot_isSome hm0 hm1, h]

/-- Witness for C8 at `middleAngle = 42` on the empty buffer. -/
theorem width_one_returns_slot_witness :
    GetAverageDistanceFromAngle emptyMeasures 42 1 = .ok 0 :=
  (width_one_returns_slot emptyMeasures 42 (by decide) (by decide)).1 rfl

/-- Claim C9: calling `Run` while the handler is already running returns the
already-running error and leaves the state — the `isRunning` flag, the
measurement buffer and the startup-line counter — unchanged, no matter how
the external effects would have gone. -/
theorem run_already_running (producerOk : Bool) (wrapResult : Option RunErr)
    (s : HandlerState) (h : s.isRunning = true) :
    DefaultHandler.Run producerOk wrapResult s = (some .alreadyRunning, s) := by
  unfold DefaultHandler.Run
  rw [if_pos h]

/-- Witness for C9 on a concrete running state. -/
theorem run_already_running_witness :
    runningState.isRunning = true ∧
    DefaultHandler.Run true none runningState =
      (some .alreadyRunning, runningState) :=
  ⟨rfl, run_already_running true none runningState rfl⟩

/-- Claim C10 (amended): for every odd width in `[1, 43]`, the all-directions
query returns the association map with exactly one entry per enumerated
direction, in table order, each entry's value being the single-direction
query's value on the same snapshot; widths of 45 and above hit the
out-of-range slip of `GetAverageDistanceFromAngle` for the direction table's
338-degree entry, so the claim's "every valid width" fails (see the
counterexample). -/
theorem allDirections_entries (measures : MeasureBuffer) (w : ℤ)
    (hodd : Int.tmod w 2 ≠ 0) (hw1 : 1 ≤ w) (hw43 : w ≤ 43) :
    GetAverageDistanceFromAllDirections measures w =
      .ok (CardinalDirections.map fun d =>
        (d, okValue (GetAverageDistanceFromDirection measures w d))) ∧
    ∀ d ∈ CardinalDirections,
      (GetAverageDistanceFromDirection measures w d).isOk = true := by
  have hok : ∀ d ∈ CardinalDirections,
      (GetAverageDistanceFromDirection measures w d).isOk = true :=
    fun d _ => fromDirection_isOk measures hodd hw1 hw43 d
  exact ⟨fromDirections_map hok, hok⟩

/-- Witness for C10 at width 3 on the empty buffer. -/
theorem allDirections_entries_witness :
    (Int.tmod (3 : ℤ) 2 ≠ 0 ∧ (1 : ℤ) ≤ 3 ∧ (3 : ℤ) ≤ 43) ∧
    (GetAverageDistanceFromAllDirections emptyMeasures 3 =
      .ok (CardinalDirections.map fun d =>
        (d, okValue (GetAverageDistanceFromDirection emptyMeasures 3 d))) ∧
    ∀ d ∈ CardinalDirections,
      (GetAverageDistanceFromDirection emptyMeasures 3 d).isOk = true) :=
  ⟨by decide,
    allDirections_entries emptyMeasures 3 (by decide) (by decide) (by decide)⟩

/-- Claim C10 counterexample: at the valid width 45 the all-directions query
does not return a 16-entry map — the north-northwest direction (angle 337.5,
rounded to 338) makes `GetAverageDistanceFromAngle` read index 360, so the
whole query ends in the out-of-range outcome. -/
theorem allDirections_oob_at_45 :
    GetAverageDistanceFromAllDirections emptyMeasures 45 = .outOfRange := by
  have hpre : ∀ b ∈ ([.north, .west, .east, .south, .northwest, .northeast,
      .southwest, .southeast, .westNorthwest] : List CardinalDirection),
      (GetAverageDistanceFromDirection emptyMeasures 45 b).isOk = true := by
    intro b hb
    fin_cases hb
    · rw [fromDirection_eq _ _ _ rounded_angle_north]; decide
    · rw [fromDirection_eq _ _ _ rounded_angle_west]; decide
    · rw [fromDirection_eq _ _ _ rounded_angle_east]; decide
    · rw [fromDirection_eq _ _ _ rounded_angle_south]; decide
    · rw [fromDirection_eq _ _ _ rounded_angle_northwest]; decide
    · rw [fromDirection_eq _ _ _ rounded_angle_northeast]; decide
    · rw [fromDirection_eq _ _ _ rounded_angle_southwest]; decide
    · rw [fromDirection_eq _ _ _ rounded_angle_southeast]; decide
    · rw [fromDirection_eq _ _ _ rounded_angle_westNorthwest]; decide
  have hnnw : GetAverageDistanceFromDirection emptyMeasures 45 .northNorthwest =
      .outOfRange := by
    rw [fromDirection_eq _ _ _ rounded_angle_northNorthwest]
    decide
  show GetAverageDistancesFromDirections emptyMeasures 45 CardinalDirections =
    .outOfRange
  rw [show CardinalDirections = [.north, .west, .east, .south, .northwest,
      .northeast, .southwest, .southeast, .westNorthwest] ++
      .northNorthwest :: [.eastNortheast, .northNortheast, .westSouthwest,
      .eastSoutheast, .southSouthwest, .southSoutheast] from rfl]
  exact fromDirections_oob hpre hnnw
